import Mathlib

/-!
# Verification of the trade-ledger / position-aggregation core (`position_mgmt.py`)

Shallow embedding of the repository's core logic:

* `Trade` mirrors the Python `Trade` record (`trade_id`, `trade_date`,
  `instrument`, `quantity`, `price`, `side`).  Python integers are modelled
  as `Int`, Python floats as `ℚ` (exact arithmetic), `side` as the literal
  `String` the source compares against (`"buy"` / `"sell"`).
* `TradePosition` mirrors the Python `TradePosition` (instrument, signed
  quantity, average price).
* `TradeRepository` mirrors the Python `TradeRepository`: a trade map keyed
  by trade id and a position map keyed by instrument, both modelled as
  `→ Option` maps.
* Python exceptions are modelled explicitly: every mutating operation
  returns the post-call state *and* an `Option PyErr` describing whether the
  call raised (`ZeroDivisionError` from the average-price division, or a
  `KeyError` from a missing position key).  The returned state is the state
  at the moment the exception propagates — Python mutates in place and rolls
  nothing back, and the embedding reproduces those partial mutations.
-/

/-- The exceptions the Python source can raise: `ZeroDivisionError` from the
average-price division in `update_position`, and `KeyError` from
`self.positions[trade.instrument]` when the instrument key is absent. -/
inductive PyErr where
  | zeroDiv
  | keyError
deriving DecidableEq, Repr

/-- Python `Trade.__init__` (`position_mgmt.py` lines 3–10).  `trade_date` is
never inspected by the core logic; it is kept as an opaque integer tag. -/
structure Trade where
  trade_id : Int
  trade_date : Int
  instrument : String
  quantity : Int
  price : ℚ
  side : String
deriving DecidableEq, Repr

/-- Python `TradePosition` state (`position_mgmt.py` lines 12–16). -/
structure TradePosition where
  instrument : String
  quantity : Int
  average_price : ℚ
deriving DecidableEq, Repr

/-- Python `TradePosition.__init__(instrument)`: fresh position with
`quantity = 0`, `average_price = 0.0`. -/
def TradePosition.init (instrument : String) : TradePosition :=
  { instrument := instrument, quantity := 0, average_price := 0 }

/-- Python `TradePosition.update_position(trade)` (lines 18–25).

Buy: `self.quantity += trade.quantity`, then
`self.average_price = (self.average_price * (self.quantity - trade.quantity)
+ trade.price * trade.quantity) / self.quantity`, where `self.quantity` is
the already-incremented value.  When the new quantity is `0` the division
raises `ZeroDivisionError` *after* the quantity increment and *before* the
average-price assignment, so the returned state has the new quantity and the
old average price.

Sell: `self.quantity -= trade.quantity`; the average price is reset to `0.0`
exactly when the new quantity is `0` and left untouched otherwise.

Any other `side` string falls through both branches and changes nothing. -/
def TradePosition.update_position (p : TradePosition) (t : Trade) :
    TradePosition × Option PyErr :=
  if t.side = "buy" then
    let q := p.quantity + t.quantity
    if q = 0 then
      ({ p with quantity := q }, some PyErr.zeroDiv)
    else
      let avg := (p.average_price * ((q : ℚ) - (t.quantity : ℚ))
        + t.price * (t.quantity : ℚ)) / (q : ℚ)
      ({ p with quantity := q, average_price := avg }, none)
  else if t.side = "sell" then
    let q := p.quantity - t.quantity
    if q = 0 then
      ({ p with quantity := q, average_price := 0 }, none)
    else
      ({ p with quantity := q }, none)
  else
    (p, none)

/-- Python `TradeRepository` state (lines 27–30): the trade map and the
position map, both initially empty. -/
structure TradeRepository where
  trades : Int → Option Trade
  positions : String → Option TradePosition

/-- Python `TradeRepository.__init__`: both maps empty. -/
def TradeRepository.init : TradeRepository :=
  { trades := fun _ => none, positions := fun _ => none }

/-- Python `TradeRepository.add_trade(trade)` (lines 32–36): store the trade
under its id (silently overwriting), create the zero position for the
instrument if absent, then `update_position`.  A `ZeroDivisionError` from
`update_position` propagates after the trade has been stored and the
position's quantity mutated. -/
def TradeRepository.add_trade (r : TradeRepository) (t : Trade) :
    TradeRepository × Option PyErr :=
  let trades' : Int → Option Trade :=
    fun i => if i = t.trade_id then some t else r.trades i
  let p0 : TradePosition :=
    match r.positions t.instrument with
    | some p => p
    | none => TradePosition.init t.instrument
  let res := p0.update_position t
  ({ trades := trades',
     positions := fun i => if i = t.instrument then some res.1 else r.positions i },
   res.2)

/-- The in-place field mutation performed by `amend_trade` (lines 41–44):
`if new_quantity:` / `if new_price:` — Python truthiness, so a provided
value of exactly `0` leaves the field unchanged, as does an absent
(`None`) argument. -/
def Trade.amendFields (t : Trade) (new_quantity : Option Int)
    (new_price : Option ℚ) : Trade :=
  let t1 :=
    match new_quantity with
    | some q => if q ≠ 0 then { t with quantity := q } else t
    | none => t
  match new_price with
  | some pr => if pr ≠ 0 then { t1 with price := pr } else t1
  | none => t1

/-- Python `TradeRepository.amend_trade(trade_id, new_quantity, new_price)`
(lines 38–45): silent no-op when the id is unknown; otherwise mutate the
stored trade's fields in place (Python truthiness: `0` means "not
provided"), then `update_position` on `self.positions[trade.instrument]`.
The field mutation happens before the position lookup and update, so it
survives even when the position update raises. -/
def TradeRepository.amend_trade (r : TradeRepository) (trade_id : Int)
    (new_quantity : Option Int) (new_price : Option ℚ) :
    TradeRepository × Option PyErr :=
  match r.trades trade_id with
  | none => (r, none)
  | some t =>
    let t' := t.amendFields new_quantity new_price
    let trades' : Int → Option Trade :=
      fun i => if i = trade_id then some t' else r.trades i
    match r.positions t'.instrument with
    | none => ({ r with trades := trades' }, some PyErr.keyError)
    | some p =>
      let res := p.update_position t'
      ({ trades := trades',
         positions := fun i =>
           if i = t'.instrument then some res.1 else r.positions i },
       res.2)

/-- Python `TradeRepository.cancel_trade(trade_id)` (lines 47–53): silent
no-op when the id is unknown; otherwise `del` the trade, then
`quantity -= trade.quantity if trade.side == 'buy' else -trade.quantity`,
and reset the average price to `0.0` exactly when the resulting quantity
is `0`.  The deletion happens before the position lookup, so it survives a
`KeyError` on the position map. -/
def TradeRepository.cancel_trade (r : TradeRepository) (trade_id : Int) :
    TradeRepository × Option PyErr :=
  match r.trades trade_id with
  | none => (r, none)
  | some t =>
    let trades' : Int → Option Trade :=
      fun i => if i = trade_id then none else r.trades i
    match r.positions t.instrument with
    | none => ({ r with trades := trades' }, some PyErr.keyError)
    | some p =>
      let q := p.quantity - (if t.side = "buy" then t.quantity else -t.quantity)
      let p' : TradePosition :=
        if q = 0 then { p with quantity := q, average_price := 0 }
        else { p with quantity := q }
      ({ trades := trades',
         positions := fun i =>
           if i = t.instrument then some p' else r.positions i },
       none)

/-- Python `TradeRepository.get_position(instrument)` (lines 55–56): pure
lookup via `dict.get`, returning `None` when absent, never mutating. -/
def TradeRepository.get_position (r : TradeRepository) (instrument : String) :
    Option TradePosition :=
  r.positions instrument

/-- One external call to the ledger. -/
inductive Op where
  | add (t : Trade)
  | amend (trade_id : Int) (new_quantity : Option Int) (new_price : Option ℚ)
  | cancel (trade_id : Int)
  | get (instrument : String)
deriving Repr

/-- Execute one call, returning the post-call state and the exception it
raised, if any. -/
def runOp (r : TradeRepository) : Op → TradeRepository × Option PyErr
  | Op.add t => r.add_trade t
  | Op.amend id nq np => r.amend_trade id nq np
  | Op.cancel id => r.cancel_trade id
  | Op.get _ => (r, none)

/-- Execute a sequence of calls, carrying the state across raising calls as
well (Python rolls nothing back; a caller that catches the exception sees
this state). -/
def runList (r : TradeRepository) : List Op → TradeRepository
  | [] => r
  | op :: ops => runList (runOp r op).1 ops

/-- Execute a sequence of calls, returning `none` as soon as any call
raises: `runClean` reaches exactly the states produced by sequences in
which every call completes normally. -/
def runClean (r : TradeRepository) : List Op → Option TradeRepository
  | [] => some r
  | op :: ops =>
    match runOp r op with
    | (r', none) => runClean r' ops
    | (_, some _) => none

/-- The quantity the position map currently records for an instrument
(`0` when the instrument has never been traded, matching the freshly
created position `add_trade` would build). -/
def posQty (r : TradeRepository) (instrument : String) : Int :=
  match r.positions instrument with
  | some p => p.quantity
  | none => 0

/-- All ledger states reachable from a fresh repository by a finite call
sequence (raising calls included, since Python rolls nothing back). -/
def reachable (ops : List Op) : TradeRepository :=
  runList TradeRepository.init ops

/-- The implicit ledger invariant: every stored trade's instrument is a key
of the position map. -/
def KeyInv (r : TradeRepository) : Prop :=
  ∀ id t, r.trades id = some t → (r.positions t.instrument).isSome

/-- The spec's zero-quantity invariant, as a predicate on ledger states:
every position whose quantity is exactly `0` has average price exactly
`0`. -/
def ZeroAvgInv (r : TradeRepository) : Prop :=
  ∀ i p, r.positions i = some p → p.quantity = 0 → p.average_price = 0

/-- First trade of the spec's reference walkthrough: buy 100 AAPL at 100.0. -/
def aaplTrade1 : Trade :=
  { trade_id := 1, trade_date := 0, instrument := "AAPL",
    quantity := 100, price := 100, side := "buy" }

/-- Second trade of the walkthrough: buy 50 AAPL at 110.0. -/
def aaplTrade2 : Trade :=
  { trade_id := 2, trade_date := 0, instrument := "AAPL",
    quantity := 50, price := 110, side := "buy" }

/-- Third trade of the walkthrough: sell 20 AAPL at 120.0. -/
def aaplTrade3 : Trade :=
  { trade_id := 3, trade_date := 0, instrument := "AAPL",
    quantity := 20, price := 120, side := "sell" }

/-- The call sequence of the spec's reference walkthrough. -/
def aaplOps : List Op :=
  [Op.add aaplTrade1, Op.add aaplTrade2, Op.add aaplTrade3]

/-- Buy 10 XYZ at 5: drives the XYZ position to quantity 10, average 5. -/
def xyzBuy : Trade :=
  { trade_id := 11, trade_date := 0, instrument := "XYZ",
    quantity := 10, price := 5, side := "buy" }

/-- Sell 20 XYZ: drives the XYZ position short to quantity -10, leaving the
average price at 5. -/
def xyzSell : Trade :=
  { trade_id := 12, trade_date := 0, instrument := "XYZ",
    quantity := 20, price := 6, side := "sell" }

/-- Buy 10 XYZ: drives the short XYZ position back to exactly 0, making the
average-price division raise. -/
def xyzZeroBuy : Trade :=
  { trade_id := 13, trade_date := 0, instrument := "XYZ",
    quantity := 10, price := 7, side := "buy" }

/-- Ledger state holding a short XYZ position of quantity -10 at average
price 5. -/
def xyzShortRepo : TradeRepository :=
  runList TradeRepository.init [Op.add xyzBuy, Op.add xyzSell]

/-- A single registered buy trade, used to instantiate theorems at a
concrete input. -/
def wTrade : Trade :=
  { trade_id := 1, trade_date := 0, instrument := "AAPL",
    quantity := 10, price := 5, side := "buy" }

/-- The position matching `wTrade` after one application. -/
def wPos : TradePosition :=
  { instrument := "AAPL", quantity := 10, average_price := 5 }

/-- A concrete ledger state: `wTrade` registered under id 1, its position at
quantity 10, average 5. -/
def wRepo : TradeRepository :=
  { trades := fun i => if i = 1 then some wTrade else none,
    positions := fun s => if s = "AAPL" then some wPos else none }

/-- A concrete short position in AAPL: quantity -10, average 5. -/
def wNegPos : TradePosition :=
  { instrument := "AAPL", quantity := -10, average_price := 5 }

/-- A concrete ledger state whose AAPL position is short 10, so that the
buy `wTrade` drives it to exactly 0. -/
def wNegRepo : TradeRepository :=
  { trades := fun _ => none,
    positions := fun s => if s = "AAPL" then some wNegPos else none }

/-! ## Basic lemmas about the field mutation and the aggregator -/

lemma Trade.amendFields_instrument (t : Trade) (nq : Option Int) (np : Option ℚ) :
    (t.amendFields nq np).instrument = t.instrument := by
  unfold Trade.amendFields
  cases nq <;> cases np <;> dsimp only <;> (repeat' split) <;> rfl

lemma Trade.amendFields_side (t : Trade) (nq : Option Int) (np : Option ℚ) :
    (t.amendFields nq np).side = t.side := by
  unfold Trade.amendFields
  cases nq <;> cases np <;> dsimp only <;> (repeat' split) <;> rfl

lemma Trade.amendFields_zero (t : Trade) :
    t.amendFields (some 0) (some 0) = t := by
  simp [Trade.amendFields]

/-- Which inputs make `update_position` raise: exactly a buy whose quantity
drives the position's quantity to zero. -/
lemma update_position_snd (p : TradePosition) (t : Trade) :
    (p.update_position t).2
      = if t.side = "buy" ∧ p.quantity + t.quantity = 0
        then some PyErr.zeroDiv else none := by
  unfold TradePosition.update_position
  by_cases hb : t.side = "buy"
  · by_cases hq : p.quantity + t.quantity = 0 <;> simp [hb, hq]
  · by_cases hs : t.side = "sell"
    · by_cases hq : p.quantity - t.quantity = 0 <;> simp [hb, hs, hq]
    · simp [hb, hs]

/-- `update_position` never touches the instrument field. -/
lemma update_position_instrument (p : TradePosition) (t : Trade) :
    (p.update_position t).1.instrument = p.instrument := by
  unfold TradePosition.update_position
  dsimp only
  (repeat' split) <;> rfl

/-- A non-raising `update_position` preserves the pointwise zero-quantity
property of a position. -/
lemma update_position_zeroAvg (p : TradePosition) (t : Trade)
    (hp : p.quantity = 0 → p.average_price = 0)
    (he : (p.update_position t).2 = none) :
    (p.update_position t).1.quantity = 0 → (p.update_position t).1.average_price = 0 := by
  unfold TradePosition.update_position at he ⊢
  by_cases hb : t.side = "buy"
  · by_cases hq : p.quantity + t.quantity = 0
    · simp [hb, hq] at he
    · simp [hb, hq]
  · by_cases hs : t.side = "sell"
    · by_cases hq : p.quantity - t.quantity = 0 <;> simp [hb, hs, hq]
    · simpa [hb, hs] using hp

/-! ## Preservation of the instrument-key invariant -/

lemma keyInv_init : KeyInv TradeRepository.init := by
  intro id t h
  simp [TradeRepository.init] at h

lemma keyInv_add_trade (r : TradeRepository) (t : Trade) (h : KeyInv r) :
    KeyInv (r.add_trade t).1 := by
  intro id u hu
  simp only [TradeRepository.add_trade] at hu ⊢
  by_cases hins : u.instrument = t.instrument
  · simp [hins]
  · rw [if_neg hins]
    by_cases hid : id = t.trade_id
    · rw [if_pos hid, Option.some.injEq] at hu
      exact absurd (congrArg Trade.instrument hu.symm) hins
    · rw [if_neg hid] at hu
      exact h id u hu

lemma keyInv_amend_trade (r : TradeRepository) (trade_id : Int)
    (nq : Option Int) (np : Option ℚ) (h : KeyInv r) :
    KeyInv (r.amend_trade trade_id nq np).1 := by
  cases ht : r.trades trade_id with
  | none =>
    intro id u hu
    simp only [TradeRepository.amend_trade, ht] at hu ⊢
    exact h id u hu
  | some t =>
    have hpos := h trade_id t ht
    cases hp : r.positions (t.amendFields nq np).instrument with
    | none =>
      rw [Trade.amendFields_instrument] at hp
      rw [hp] at hpos
      simp at hpos
    | some p =>
      intro id u hu
      simp only [TradeRepository.amend_trade, ht, hp] at hu ⊢
      by_cases hins : u.instrument = (t.amendFields nq np).instrument
      · simp [hins]
      · rw [if_neg hins]
        by_cases hid : id = trade_id
        · rw [if_pos hid, Option.some.injEq] at hu
          exact absurd (congrArg Trade.instrument hu.symm) hins
        · rw [if_neg hid] at hu
          exact h id u hu

lemma keyInv_cancel_trade (r : TradeRepository) (trade_id : Int) (h : KeyInv r) :
    KeyInv (r.cancel_trade trade_id).1 := by
  cases ht : r.trades trade_id with
  | none =>
    intro id u hu
    simp only [TradeRepository.cancel_trade, ht] at hu ⊢
    exact h id u hu
  | some t =>
    cases hp : r.positions t.instrument with
    | none =>
      intro id u hu
      simp only [TradeRepository.cancel_trade, ht, hp] at hu ⊢
      by_cases hid : id = trade_id
      · rw [if_pos hid] at hu
        exact absurd hu (by simp)
      · rw [if_neg hid] at hu
        exact h id u hu
    | some p =>
      intro id u hu
      simp only [TradeRepository.cancel_trade, ht, hp] at hu ⊢
      by_cases hins : u.instrument = t.instrument
      · simp [hins]
      · rw [if_neg hins]
        by_cases hid : id = trade_id
        · rw [if_pos hid] at hu
          exact absurd hu (by simp)
        · rw [if_neg hid] at hu
          exact h id u hu

lemma keyInv_runOp (r : TradeRepository) (op : Op) (h : KeyInv r) :
    KeyInv (runOp r op).1 := by
  cases op with
  | add t => exact keyInv_add_trade r t h
  | amend id nq np => exact keyInv_amend_trade r id nq np h
  | cancel id => exact keyInv_cancel_trade r id h
  | get i => exact h

lemma keyInv_runList (ops : List Op) :
    ∀ r : TradeRepository, KeyInv r → KeyInv (runList r ops) := by
  induction ops with
  | nil => intro r h; exact h
  | cons op ops ih =>
    intro r h
    exact ih (runOp r op).1 (keyInv_runOp r op h)

lemma keyInv_reachable (ops : List Op) : KeyInv (reachable ops) :=
  keyInv_runList ops TradeRepository.init keyInv_init

/-! ## Preservation of the zero-quantity invariant on non-raising calls -/

lemma zeroAvg_init : ZeroAvgInv TradeRepository.init := by
  intro i p hp
  simp [TradeRepository.init] at hp

lemma zeroAvg_add_trade (r : TradeRepository) (t : Trade) (h : ZeroAvgInv r)
    (he : (r.add_trade t).2 = none) : ZeroAvgInv (r.add_trade t).1 := by
  intro i p hp
  simp only [TradeRepository.add_trade] at hp he
  by_cases hins : i = t.instrument
  · rw [if_pos hins, Option.some.injEq] at hp
    subst hp
    cases hp0 : r.positions t.instrument with
    | none =>
      rw [hp0] at he
      exact update_position_zeroAvg _ t (by simp [TradePosition.init]) he
    | some p0 =>
      rw [hp0] at he
      exact update_position_zeroAvg p0 t (h t.instrument p0 hp0) he
  · rw [if_neg hins] at hp
    exact h i p hp

lemma zeroAvg_amend_trade (r : TradeRepository) (trade_id : Int)
    (nq : Option Int) (np : Option ℚ) (h : ZeroAvgInv r)
    (he : (r.amend_trade trade_id nq np).2 = none) :
    ZeroAvgInv (r.amend_trade trade_id nq np).1 := by
  cases ht : r.trades trade_id with
  | none =>
    intro i p hp
    simp only [TradeRepository.amend_trade, ht] at hp
    exact h i p hp
  | some t =>
    cases hp0 : r.positions (t.amendFields nq np).instrument with
    | none =>
      simp [TradeRepository.amend_trade, ht, hp0] at he
    | some p0 =>
      intro i p hp
      simp only [TradeRepository.amend_trade, ht, hp0] at hp he
      by_cases hins : i = (t.amendFields nq np).instrument
      · rw [if_pos hins, Option.some.injEq] at hp
        subst hp
        exact update_position_zeroAvg p0 _ (h _ p0 hp0) he
      · rw [if_neg hins] at hp
        exact h i p hp

lemma zeroAvg_cancel_trade (r : TradeRepository) (trade_id : Int)
    (h : ZeroAvgInv r) : ZeroAvgInv (r.cancel_trade trade_id).1 := by
  cases ht : r.trades trade_id with
  | none =>
    intro i p hp
    simp only [TradeRepository.cancel_trade, ht] at hp
    exact h i p hp
  | some t =>
    cases hp0 : r.positions t.instrument with
    | none =>
      intro i p hp
      simp only [TradeRepository.cancel_trade, ht, hp0] at hp
      exact h i p hp
    | some p0 =>
      intro i p hp
      simp only [TradeRepository.cancel_trade, ht, hp0] at hp
      by_cases hins : i = t.instrument
      · rw [if_pos hins, Option.some.injEq] at hp
        subst hp
        by_cases hq : p0.quantity - (if t.side = "buy" then t.quantity else -t.quantity) = 0
        · simp [hq]
        · simp [hq]
      · rw [if_neg hins] at hp
        exact h i p hp

lemma zeroAvg_runClean (ops : List Op) :
    ∀ r r' : TradeRepository, ZeroAvgInv r → runClean r ops = some r' →
      ZeroAvgInv r' := by
  induction ops with
  | nil =>
    intro r r' h hrun
    simp only [runClean, Option.some.injEq] at hrun
    exact hrun ▸ h
  | cons op ops ih =>
    intro r r' h hrun
    simp only [runClean] at hrun
    cases he : (runOp r op).2 with
    | some e =>
      rw [(by rfl : runOp r op = ((runOp r op).1, (runOp r op).2)), he] at hrun
      simp at hrun
    | none =>
      rw [(by rfl : runOp r op = ((runOp r op).1, (runOp r op).2)), he] at hrun
      refine ih (runOp r op).1 r' ?_ hrun
      cases op with
      | add t => exact zeroAvg_add_trade r t h he
      | amend id nq np => exact zeroAvg_amend_trade r id nq np h he
      | cancel id => exact zeroAvg_cancel_trade r id h
      | get i => exact h

/-! ## Which calls raise which exceptions -/

lemma add_trade_err (r : TradeRepository) (t : Trade) :
    (r.add_trade t).2
      = if t.side = "buy" ∧ posQty r t.instrument = -t.quantity
        then some PyErr.zeroDiv else none := by
  have hmain : (r.add_trade t).2
      = ((match r.positions t.instrument with
          | some p => p
          | none => TradePosition.init t.instrument).update_position t).2 := rfl
  have hq : (match r.positions t.instrument with
      | some p => p
      | none => TradePosition.init t.instrument).quantity = posQty r t.instrument := by
    cases hp : r.positions t.instrument <;> simp [posQty, TradePosition.init, hp]
  rw [hmain, update_position_snd, hq]
  simp only [show ∀ a b : ℤ, (a + b = 0) ↔ (a = -b) from fun a b => by omega]

lemma add_trade_no_keyError (r : TradeRepository) (t : Trade) :
    (r.add_trade t).2 ≠ some PyErr.keyError := by
  rw [add_trade_err]
  split <;> simp

lemma amend_trade_err (r : TradeRepository) (trade_id : Int)
    (nq : Option Int) (np : Option ℚ) (hKI : KeyInv r) :
    (((r.amend_trade trade_id nq np).2 = some PyErr.zeroDiv)
      ↔ ∃ t0, r.trades trade_id = some t0
          ∧ (t0.amendFields nq np).side = "buy"
          ∧ posQty r t0.instrument = -(t0.amendFields nq np).quantity)
    ∧ (r.amend_trade trade_id nq np).2 ≠ some PyErr.keyError := by
  cases ht : r.trades trade_id with
  | none => simp [TradeRepository.amend_trade, ht]
  | some t =>
    have hpos := hKI trade_id t ht
    cases hp : r.positions (t.amendFields nq np).instrument with
    | none =>
      rw [Trade.amendFields_instrument] at hp
      rw [hp] at hpos
      simp at hpos
    | some p =>
      have hq : p.quantity = posQty r t.instrument := by
        rw [Trade.amendFields_instrument] at hp
        simp [posQty, hp]
      simp only [TradeRepository.amend_trade, ht, hp, update_position_snd,
        Option.some.injEq]
      constructor
      · constructor
        · intro h
          by_cases hc : (t.amendFields nq np).side = "buy"
              ∧ p.quantity + (t.amendFields nq np).quantity = 0
          · obtain ⟨hbuy, hzero⟩ := hc
            refine ⟨t, rfl, hbuy, ?_⟩
            omega
          · rw [if_neg hc] at h
            simp at h
        · rintro ⟨t0, ht0, hbuy, hz⟩
          cases ht0
          rw [if_pos ⟨hbuy, by omega⟩]
      · split <;> simp

lemma cancel_trade_no_err (r : TradeRepository) (trade_id : Int) (hKI : KeyInv r) :
    (r.cancel_trade trade_id).2 = none := by
  cases ht : r.trades trade_id with
  | none => simp [TradeRepository.cancel_trade, ht]
  | some t =>
    have hpos := hKI trade_id t ht
    cases hp : r.positions t.instrument with
    | none =>
      rw [hp] at hpos
      simp at hpos
    | some p => simp [TradeRepository.cancel_trade, ht, hp]

/-! ## Claim theorems -/

/-- C6: for every trade id not present in the trade map, `amend_trade` and
`cancel_trade` raise nothing and return the ledger state exactly unchanged
(both the trade map and the position map). -/
theorem unknown_id_silent_noop (r : TradeRepository) (trade_id : Int)
    (nq : Option Int) (np : Option ℚ) (h : r.trades trade_id = none) :
    r.amend_trade trade_id nq np = (r, none)
    ∧ r.cancel_trade trade_id = (r, none) := by
  constructor
  · simp [TradeRepository.amend_trade, h]
  · simp [TradeRepository.cancel_trade, h]

/-- Witness for C6: amending and cancelling the never-registered id 7 on the
fresh ledger leaves it untouched and raises nothing. -/
theorem unknown_id_silent_noop_witness :
    TradeRepository.init.trades 7 = none
    ∧ (TradeRepository.init.amend_trade 7 (some 5) none
        = (TradeRepository.init, none)
      ∧ TradeRepository.init.cancel_trade 7 = (TradeRepository.init, none)) :=
  ⟨rfl, unknown_id_silent_noop TradeRepository.init 7 (some 5) none rfl⟩

/-- C7: applying a sell-side trade whose quantity differs from the
position's current quantity leaves the average price exactly unchanged,
changes the quantity to its old value minus the trade quantity, keeps the
instrument, and raises nothing. -/
theorem sell_preserves_average_price (p : TradePosition) (t : Trade)
    (hside : t.side = "sell") (hq : t.quantity ≠ p.quantity) :
    (p.update_position t).1.average_price = p.average_price
    ∧ (p.update_position t).1.quantity = p.quantity - t.quantity
    ∧ (p.update_position t).1.instrument = p.instrument
    ∧ (p.update_position t).2 = none := by
  have hb : ¬ t.side = "buy" := by rw [hside]; intro hh; exact absurd hh (by decide)
  have h0 : ¬ (p.quantity - t.quantity = 0) := by omega
  unfold TradePosition.update_position
  simp [hb, hside, h0]

/-- Witness for C7: selling 20 out of a position of 10 (going short) keeps
the average price at 5. -/
theorem sell_preserves_average_price_witness :
    (aaplTrade3.side = "sell" ∧ aaplTrade3.quantity ≠ wPos.quantity)
    ∧ ((wPos.update_position aaplTrade3).1.average_price = wPos.average_price
      ∧ (wPos.update_position aaplTrade3).1.quantity
          = wPos.quantity - aaplTrade3.quantity
      ∧ (wPos.update_position aaplTrade3).1.instrument = wPos.instrument
      ∧ (wPos.update_position aaplTrade3).2 = none) :=
  ⟨⟨rfl, by decide⟩,
   sell_preserves_average_price wPos aaplTrade3 rfl (by decide)⟩

/-- C8: amending a registered trade with `new_quantity = 0` and
`new_price = 0` leaves the stored trade's fields unchanged (both zeros are
falsy, hence treated as "not provided"), yet still re-applies the unmodified
trade to the instrument's position through `update_position`. -/
theorem amend_zero_treated_as_absent (r : TradeRepository) (trade_id : Int)
    (t : Trade) (p : TradePosition)
    (ht : r.trades trade_id = some t)
    (hp : r.positions t.instrument = some p) :
    (r.amend_trade trade_id (some 0) (some 0)).1.trades trade_id = some t
    ∧ (r.amend_trade trade_id (some 0) (some 0)).1.positions t.instrument
        = some (p.update_position t).1
    ∧ (r.amend_trade trade_id (some 0) (some 0)).2 = (p.update_position t).2 := by
  have hz := Trade.amendFields_zero t
  simp only [TradeRepository.amend_trade, ht, hz, hp]
  simp

/-- Witness for C8: amending trade 1 of `wRepo` with zero quantity and zero
price keeps the trade at quantity 10, price 5, and re-applies it to the
position. -/
theorem amend_zero_treated_as_absent_witness :
    (wRepo.trades 1 = some wTrade
      ∧ wRepo.positions wTrade.instrument = some wPos)
    ∧ ((wRepo.amend_trade 1 (some 0) (some 0)).1.trades 1 = some wTrade
      ∧ (wRepo.amend_trade 1 (some 0) (some 0)).1.positions wTrade.instrument
          = some (wPos.update_position wTrade).1
      ∧ (wRepo.amend_trade 1 (some 0) (some 0)).2
          = (wPos.update_position wTrade).2) :=
  ⟨⟨by simp [wRepo], by simp [wRepo, wTrade]⟩,
   amend_zero_treated_as_absent wRepo 1 wTrade wPos (by simp [wRepo])
     (by simp [wRepo, wTrade])⟩

/-- C2: amending a registered trade id first replaces the stored trade with
its field-mutated version, then updates the instrument's position by
applying `update_position` — the very same new-trade rule `add_trade`
uses — to the mutated trade and the *current* (already-once-applied)
position `p`, with no prior reversal of the original trade's contribution:
the resulting position (and raised exception, if any) coincide exactly with
what registering the mutated trade as an independent new trade on `r` would
produce for that instrument. -/
theorem amend_trade_nonreversing (r : TradeRepository) (trade_id : Int)
    (nq : Option Int) (np : Option ℚ) (t : Trade) (p : TradePosition)
    (ht : r.trades trade_id = some t)
    (hp : r.positions t.instrument = some p) :
    (r.amend_trade trade_id nq np).1.trades trade_id
      = some (t.amendFields nq np)
    ∧ (r.amend_trade trade_id nq np).1.positions t.instrument
        = some (p.update_position (t.amendFields nq np)).1
    ∧ (r.amend_trade trade_id nq np).2
        = (p.update_position (t.amendFields nq np)).2
    ∧ (r.add_trade (t.amendFields nq np)).1.positions t.instrument
        = some (p.update_position (t.amendFields nq np)).1 := by
  have hi := Trade.amendFields_instrument t nq np
  have hp' : r.positions (t.amendFields nq np).instrument = some p := by
    rw [hi]; exact hp
  refine ⟨?_, ?_, ?_, ?_⟩
  · simp [TradeRepository.amend_trade, ht, hp']
  · simp [TradeRepository.amend_trade, ht, hp, hp', hi]
  · simp [TradeRepository.amend_trade, ht, hp']
  · simp [TradeRepository.add_trade, hp, hp', hi]

/-- Witness for C2: amending trade 1 of `wRepo` to quantity 4, price 9
stores the mutated trade and applies it to the current position as a fresh
buy would. -/
theorem amend_trade_nonreversing_witness :
    (wRepo.trades 1 = some wTrade
      ∧ wRepo.positions wTrade.instrument = some wPos)
    ∧ ((wRepo.amend_trade 1 (some 4) (some 9)).1.trades 1
        = some (wTrade.amendFields (some 4) (some 9))
      ∧ (wRepo.amend_trade 1 (some 4) (some 9)).1.positions wTrade.instrument
          = some (wPos.update_position (wTrade.amendFields (some 4) (some 9))).1
      ∧ (wRepo.amend_trade 1 (some 4) (some 9)).2
          = (wPos.update_position (wTrade.amendFields (some 4) (some 9))).2
      ∧ (wRepo.add_trade (wTrade.amendFields (some 4) (some 9))).1.positions
            wTrade.instrument
          = some (wPos.update_position (wTrade.amendFields (some 4) (some 9))).1) :=
  ⟨⟨by simp [wRepo], by simp [wRepo, wTrade]⟩,
   amend_trade_nonreversing wRepo 1 (some 4) (some 9) wTrade wPos
     (by simp [wRepo]) (by simp [wRepo, wTrade])⟩

/-- C5: cancelling a registered trade removes it from the trade map (other
ids untouched), changes the instrument's position quantity by exactly the
negation of the trade's signed quantity effect as stored at cancellation
time — subtract the quantity for a buy, add it for a sell — and resets the
average price to `0` exactly when the resulting quantity is `0`, leaving it
unchanged otherwise.  The call raises nothing. -/
theorem cancel_trade_semantics (r : TradeRepository) (trade_id : Int)
    (t : Trade) (p : TradePosition)
    (ht : r.trades trade_id = some t)
    (hp : r.positions t.instrument = some p)
    (hside : t.side = "buy" ∨ t.side = "sell") :
    (r.cancel_trade trade_id).1.trades trade_id = none
    ∧ (∀ j, j ≠ trade_id → (r.cancel_trade trade_id).1.trades j = r.trades j)
    ∧ (∃ p', (r.cancel_trade trade_id).1.positions t.instrument = some p'
        ∧ p'.quantity = (if t.side = "buy" then p.quantity - t.quantity
            else p.quantity + t.quantity)
        ∧ p'.average_price = (if p'.quantity = 0 then 0 else p.average_price)
        ∧ p'.instrument = p.instrument)
    ∧ (r.cancel_trade trade_id).2 = none := by
  simp only [TradeRepository.cancel_trade, ht, hp]
  refine ⟨by simp, fun j hj => by simp [hj], ?_, by simp⟩
  by_cases hz : p.quantity - (if t.side = "buy" then t.quantity else -t.quantity) = 0
  · refine ⟨{ instrument := p.instrument, quantity := 0, average_price := 0 },
      by simp [hz], ?_, by simp, rfl⟩
    by_cases hb : t.side = "buy" <;> simp [hb] at hz ⊢ <;> omega
  · refine ⟨TradePosition.mk p.instrument
        (p.quantity - (if t.side = "buy" then t.quantity else -t.quantity))
        p.average_price,
      by simp [hz], ?_, ?_, rfl⟩
    · by_cases hb : t.side = "buy" <;> simp [hb] <;> omega
    · exact (if_neg hz).symm

/-- Witness for C5: cancelling the registered buy of 10 in `wRepo` deletes
trade 1 and drops the position's quantity from 10 to 0, resetting the
average price. -/
theorem cancel_trade_semantics_witness :
    (wRepo.trades 1 = some wTrade
      ∧ wRepo.positions wTrade.instrument = some wPos
      ∧ (wTrade.side = "buy" ∨ wTrade.side = "sell"))
    ∧ ((wRepo.cancel_trade 1).1.trades 1 = none
      ∧ (∀ j, j ≠ 1 → (wRepo.cancel_trade 1).1.trades j = wRepo.trades j)
      ∧ (∃ p', (wRepo.cancel_trade 1).1.positions wTrade.instrument = some p'
          ∧ p'.quantity = (if wTrade.side = "buy"
              then wPos.quantity - wTrade.quantity
              else wPos.quantity + wTrade.quantity)
          ∧ p'.average_price = (if p'.quantity = 0 then 0
              else wPos.average_price)
          ∧ p'.instrument = wPos.instrument)
      ∧ (wRepo.cancel_trade 1).2 = none) :=
  ⟨⟨by simp [wRepo], by simp [wRepo, wTrade], Or.inl rfl⟩,
   cancel_trade_semantics wRepo 1 wTrade wPos (by simp [wRepo])
     (by simp [wRepo, wTrade]) (Or.inl rfl)⟩

/-- C10: when registering a buy whose quantity exactly negates the
position's prior quantity, `add_trade` raises the division-by-zero error
with the ledger already partially mutated: the trade is stored under its id
and the position's quantity has been driven to `0`, while the average price
still holds its pre-call value.  Nothing is rolled back. -/
theorem add_trade_partial_mutation_on_raise (r : TradeRepository) (t : Trade)
    (p : TradePosition)
    (hp : r.positions t.instrument = some p)
    (hside : t.side = "buy")
    (hq : p.quantity = -t.quantity) :
    (r.add_trade t).2 = some PyErr.zeroDiv
    ∧ (r.add_trade t).1.trades t.trade_id = some t
    ∧ (r.add_trade t).1.positions t.instrument
        = some { instrument := p.instrument, quantity := 0,
                 average_price := p.average_price } := by
  have h0 : p.quantity + t.quantity = 0 := by omega
  simp only [TradeRepository.add_trade, hp]
  unfold TradePosition.update_position
  simp [hside, h0]

/-- Witness for C10: on a ledger whose AAPL position is short 10 at average
price 5, registering the buy of 10 raises, stores the trade, zeroes the
quantity, and keeps the average price at 5. -/
theorem add_trade_partial_mutation_on_raise_witness :
    (wNegRepo.positions wTrade.instrument = some wNegPos
      ∧ wTrade.side = "buy" ∧ wNegPos.quantity = -wTrade.quantity)
    ∧ ((wNegRepo.add_trade wTrade).2 = some PyErr.zeroDiv
      ∧ (wNegRepo.add_trade wTrade).1.trades wTrade.trade_id = some wTrade
      ∧ (wNegRepo.add_trade wTrade).1.positions wTrade.instrument
          = some { instrument := wNegPos.instrument, quantity := 0,
                   average_price := wNegPos.average_price }) :=
  ⟨⟨by simp [wNegRepo, wTrade], rfl, by decide⟩,
   add_trade_partial_mutation_on_raise wNegRepo wTrade wNegPos
     (by simp [wNegRepo, wTrade]) rfl (by decide)⟩

/-- C1 (counterexample to the claim as stated): the zero-quantity invariant
does *not* survive sequences in which an operation raises.  After buying 10
XYZ at 5 and selling 20 (short 10, average price still 5), registering a buy
of 10 raises the division-by-zero error and completes with the position at
quantity `0` and average price `5 ≠ 0`. -/
theorem zero_quantity_invariant_counterexample :
    (xyzShortRepo.add_trade xyzZeroBuy).2 = some PyErr.zeroDiv
    ∧ (xyzShortRepo.add_trade xyzZeroBuy).1.positions "XYZ"
        = some { instrument := "XYZ", quantity := 0, average_price := 5 }
    ∧ (5 : ℚ) ≠ 0 := by
  refine ⟨?_, ?_, by norm_num⟩ <;>
  · simp [xyzShortRepo, xyzBuy, xyzSell, xyzZeroBuy, runList, runOp,
      TradeRepository.init, TradeRepository.add_trade, TradePosition.init,
      TradePosition.update_position]

/-- C1 (amended): for every ledger state reached from the fresh repository
by a finite sequence of calls in which *no* operation raises, every position
whose quantity is exactly `0` has average price exactly `0`. -/
theorem zero_quantity_invariant_clean (ops : List Op) (r : TradeRepository)
    (h : runClean TradeRepository.init ops = some r) : ZeroAvgInv r :=
  zeroAvg_runClean ops TradeRepository.init r zeroAvg_init h

/-- Witness for the amended C1: the empty call sequence completes cleanly
and its final state satisfies the zero-quantity invariant. -/
theorem zero_quantity_invariant_clean_witness :
    runClean TradeRepository.init [] = some TradeRepository.init
    ∧ ZeroAvgInv TradeRepository.init :=
  ⟨rfl, zero_quantity_invariant_clean [] TradeRepository.init rfl⟩

/-- C3 (counterexample to the claim as stated): the walkthrough
buy 100 @ 100, buy 50 @ 110, sell 20 on AAPL ends with quantity 130 and
average price `310/3 = 103.333...`, which is not the spec's stated value
`103.846153... = 1350/13` (it is below `103.84`). -/
theorem aapl_walkthrough_counterexample :
    (runList TradeRepository.init aaplOps).get_position "AAPL"
      = some { instrument := "AAPL", quantity := 130, average_price := 310 / 3 }
    ∧ ¬ ((310 : ℚ) / 3 = 1350 / 13)
    ∧ (310 : ℚ) / 3 < 10384 / 100 := by
  refine ⟨?_, by norm_num, by norm_num⟩
  simp [aaplOps, aaplTrade1, aaplTrade2, aaplTrade3, runList, runOp,
    TradeRepository.init, TradeRepository.add_trade, TradeRepository.get_position,
    TradePosition.init, TradePosition.update_position]
  norm_num

/-- C3 (amended): after the walkthrough the AAPL position has quantity 130
and average price `(100*100 + 50*110)/150 = 310/3 = 103.333...` — the sell
leaves the post-second-buy average unchanged. -/
theorem aapl_walkthrough :
    (runList TradeRepository.init aaplOps).get_position "AAPL"
      = some { instrument := "AAPL", quantity := 130,
               average_price := (100 * 100 + 50 * 110) / 150 } := by
  simp [aaplOps, aaplTrade1, aaplTrade2, aaplTrade3, runList, runOp,
    TradeRepository.init, TradeRepository.add_trade, TradeRepository.get_position,
    TradePosition.init, TradePosition.update_position]
  norm_num

/-- C4: on every reachable ledger state, registering a trade raises the
division-by-zero error exactly when it is buy-side and the position's prior
quantity is the negation of the trade's quantity; amending raises it
exactly when the stored trade, after field mutation, is buy-side and the
position's prior quantity negates its quantity; neither ever raises a key
error, cancelling never raises at all, and `get_position` is a pure total
lookup.  Sell-side trades therefore never raise, and no failure other than
the division-by-zero error exists in any operation. -/
theorem division_by_zero_iff (ops : List Op) (t : Trade) (trade_id : Int)
    (nq : Option Int) (np : Option ℚ) (instrument : String) :
    (((reachable ops).add_trade t).2 = some PyErr.zeroDiv
      ↔ t.side = "buy" ∧ posQty (reachable ops) t.instrument = -t.quantity)
    ∧ ((reachable ops).add_trade t).2 ≠ some PyErr.keyError
    ∧ (((reachable ops).amend_trade trade_id nq np).2 = some PyErr.zeroDiv
      ↔ ∃ t0, (reachable ops).trades trade_id = some t0
          ∧ (t0.amendFields nq np).side = "buy"
          ∧ posQty (reachable ops) t0.instrument
              = -(t0.amendFields nq np).quantity)
    ∧ ((reachable ops).amend_trade trade_id nq np).2 ≠ some PyErr.keyError
    ∧ ((reachable ops).cancel_trade trade_id).2 = none
    ∧ (reachable ops).get_position instrument
        = (reachable ops).positions instrument := by
  have hKI := keyInv_reachable ops
  refine ⟨?_, add_trade_no_keyError _ t, ?_, ?_, ?_, rfl⟩
  · rw [add_trade_err]
    constructor
    · intro h
      by_cases hc : t.side = "buy" ∧ posQty (reachable ops) t.instrument = -t.quantity
      · exact hc
      · rw [if_neg hc] at h
        simp at h
    · intro hc
      rw [if_pos hc]
  · exact (amend_trade_err (reachable ops) trade_id nq np hKI).1
  · exact (amend_trade_err (reachable ops) trade_id nq np hKI).2
  · exact cancel_trade_no_err (reachable ops) trade_id hKI

/-- C9: in every reachable ledger state every stored trade's instrument is a
key of the position map, so the position lookups done by `amend_trade` and
`cancel_trade` on a registered id never fail with a key error. -/
theorem registered_instrument_always_positioned (ops : List Op) :
    (∀ trade_id t, (reachable ops).trades trade_id = some t →
      ∃ p, (reachable ops).positions t.instrument = some p)
    ∧ (∀ trade_id nq np,
        ((reachable ops).amend_trade trade_id nq np).2 ≠ some PyErr.keyError)
    ∧ (∀ trade_id,
        ((reachable ops).cancel_trade trade_id).2 ≠ some PyErr.keyError) := by
  have hKI := keyInv_reachable ops
  refine ⟨?_, ?_, ?_⟩
  · intro trade_id t ht
    have hs := hKI trade_id t ht
    cases hp : (reachable ops).positions t.instrument with
    | none => rw [hp] at hs; simp at hs
    | some p => exact ⟨p, rfl⟩
  · intro trade_id nq np
    exact (amend_trade_err (reachable ops) trade_id nq np hKI).2
  · intro trade_id
    rw [cancel_trade_no_err (reachable ops) trade_id hKI]
    simp
